import Mathlib

/-!
Verification development for the `ccs` conversation-store reader.

The Python sources are shallowly embedded:
* program strings are lists of Unicode code points (`Str := List Nat`);
* the SQLite key-value table `cursorDiskKV` is a typed `Store` whose three
  key-prefix families (`composerData:{cid}`, `bubbleId:{cid}:{bid}`,
  `codeBlockDiff:{cid}:{did}`) are structured rows, key parsing by `SUBSTR`
  becoming field projection (keys are assumed to contain no extra `:`);
* JSON values are records with `Option` fields (`none` = absent field, so
  `json_extract`/`->>` returning SQL NULL);
* instants (Python naive `datetime`) are integers on a millisecond timeline,
  with midnight at multiples of 86400000; `datetime.fromtimestamp(ms/1000)`
  is strictly monotone, so comparisons are modelled on the raw values;
* SQLite `LIKE ... ESCAPE '\'` is modelled by `likeMatch`, with `%` given its
  any-split semantics directly; `LOWER` is the ASCII lowering SQLite uses.
-/

set_option maxHeartbeats 1600000
set_option maxRecDepth 4000

namespace CCS

/-- Program strings as lists of code points. -/
abbrev Str := List Nat

/-- Embed a Lean string literal. -/
def strL (s : String) : Str := s.toList.map Char.toNat

/-- Python truthiness of an optional string: `None` and `""` are falsy. -/
def pyTruthy : Option Str → Bool
  | none => false
  | some s => !s.isEmpty

/-- Python `\s` / `str.split` whitespace (ASCII fragment). -/
def isPySpace (c : Nat) : Bool :=
  c == 32 || c == 9 || c == 10 || c == 13 || c == 11 || c == 12

/-- SQLite `LOWER` (ASCII-only lowering). -/
def lowerChar (c : Nat) : Nat := if 65 ≤ c && c ≤ 90 then c + 32 else c

/-- `LOWER` over a whole string. -/
def lowerL (s : Str) : Str := s.map lowerChar

/-- SQLite `TRIM` with default char set: strips spaces (code 32) only. -/
def sqlTrim (s : Str) : Str :=
  ((s.dropWhile (· == 32)).reverse.dropWhile (· == 32)).reverse

def percentC : Nat := ('%').toNat
def underscoreC : Nat := ('_').toNat
def backslashC : Nat := ('\\').toNat
def quoteC : Nat := ('\"').toNat

/-- All non-empty suffixes of `c`, plus `[]` (the splits tried by `%`). -/
def tailsL : Str → List Str
  | [] => [[]]
  | c :: cs => (c :: cs) :: tailsL cs

/-- `startsW t c`: `t` is a prefix of `c`. -/
def startsW : Str → Str → Bool
  | [], _ => true
  | _ :: _, [] => false
  | t :: ts, c :: cs => t == c && startsW ts cs

/-- `containsSeq t c`: `t` occurs as a contiguous substring of `c`. -/
def containsSeq (t c : Str) : Bool := (tailsL c).any (fun suf => startsW t suf)

/-- SQLite `LIKE pattern ESCAPE '\'` matching (case-sensitive core; the code
applies it to `LOWER`ed operands).  `%` matches any sequence, `_` any single
character, `\x` the literal `x`. -/
def likeMatch : Str → Str → Bool
  | [], c => c.isEmpty
  | p :: ps, c =>
    if p == percentC then (tailsL c).any (fun suf => likeMatch ps suf)
    else if p == backslashC then
      match ps, c with
      | pe :: ps2, ce :: cs => pe == ce && likeMatch ps2 cs
      | _, _ => false
    else if p == underscoreC then
      match c with
      | [] => false
      | _ :: cs => likeMatch ps cs
    else
      match c with
      | [] => false
      | ce :: cs => p == ce && likeMatch ps cs

/-- Python `str.replace(old, new)` for a single-character `old`. -/
def replaceChar (t : Nat) (r : Str) : Str → Str
  | [] => []
  | c :: cs => (if c == t then r else [c]) ++ replaceChar t r cs

/-- `term.replace('\\','\\\\').replace('%','\\%').replace('_','\\_')` from
`CursorDatabase._find_ids_for_term`. -/
def escapeLikeTerm (t : Str) : Str :=
  replaceChar underscoreC [backslashC, underscoreC]
    (replaceChar percentC [backslashC, percentC]
      (replaceChar backslashC [backslashC, backslashC] t))

/-- The `f'%{term_escaped}%'` pattern. -/
def likePattern (term : Str) : Str := percentC :: (escapeLikeTerm term ++ [percentC])

/-- `LOWER(content) LIKE LOWER(pattern) ESCAPE '\'` as issued by the search
queries. -/
def termMatches (content term : Str) : Bool :=
  likeMatch (lowerL (likePattern term)) (lowerL content)

/-- Match against a nullable JSON field: SQL `NULL LIKE p` is not a match. -/
def optMatches (content? : Option Str) (term : Str) : Bool :=
  content?.any (fun c => termMatches c term)

/-- `SELECT DISTINCT` / Python `set(...)`: first occurrence kept. -/
def distinctAux [DecidableEq α] (seen : List α) : List α → List α
  | [] => []
  | a :: as => if a ∈ seen then distinctAux seen as else a :: distinctAux (a :: seen) as

def distinctL [DecidableEq α] (l : List α) : List α := distinctAux [] l

/-- Python set intersection `&`, observed through membership. -/
def interL [DecidableEq α] (a b : List α) : List α := a.filter (fun x => decide (x ∈ b))

/-- Lexicographic string order (Python `<=` on strings, by code point). -/
def leStr : Str → Str → Bool
  | [], _ => true
  | _ :: _, [] => false
  | a :: as, b :: bs => a < b || (a == b && leStr as bs)

/-- One code-block record inside `composerData.codeBlockData[fileUri][blockId]`.
Only the `bubbleId` back-reference is observable through the modelled
operations; the remaining payload fields are omitted. -/
structure CodeBlock where
  bubbleId : Option Str
deriving DecidableEq, Repr

/-- JSON value of a `composerData:{cid}` row.  `createdAt` is kept as the
result of `data.get('createdAt', 0)` (a missing field and an explicit `0`
are indistinguishable downstream); `modelName` flattens
`data.get('modelConfig', {}).get('modelName', ...)` with `none` covering a
missing `modelConfig` or `modelName`.  `codeBlockData` is the embedded
code-edit index `fileUri -> blockId -> record`; a missing index is `[]`
(observationally equal: every consumer only iterates it). -/
structure ComposerVal where
  composerId : Option Str
  name : Option Str
  subtitle : Option Str
  text : Option Str
  createdAt : Nat
  status : Option Str
  isArchived : Bool
  modelName : Option Str
  totalLinesAdded : Int
  totalLinesRemoved : Int
  codeBlockData : List (Str × List (Str × CodeBlock))
deriving DecidableEq, Repr

/-- JSON value of a `bubbleId:{cid}:{bid}` row.  `modelName` flattens
`data.get('modelInfo', {}).get('modelName')` (falsy `modelInfo` gives `None`).
Fields not consumed by the modelled operations (thinking, tool calls, images,
capabilities, context, …) are omitted. -/
structure BubbleVal where
  bubbleId : Option Str
  typ : Option Int
  createdAt : Option Str
  text : Option Str
  richText : Option Str
  modelName : Option Str
deriving DecidableEq, Repr

/-- JSON value of a `codeBlockDiff:{cid}:{did}` row.  `raw` is the stored JSON
text itself (the SQL also runs `LOWER(value) LIKE ...` on it); `originalText`
and `modifiedText` are its `->>` extractions. -/
structure DiffVal where
  originalText : Option Str
  modifiedText : Option Str
  raw : Str
deriving DecidableEq, Repr

/-- The `cursorDiskKV` table, split by key prefix.  Row order is the store's
iteration order.  Every row has a non-NULL value (the `c.value IS NOT NULL`
guard of `list_conversations` is a no-op for typed rows). -/
structure Store where
  composers : List (Str × ComposerVal)
  bubbles : List (Str × Str × BubbleVal)
  diffs : List (Str × Str × DiffVal)
deriving Repr

/-- `cursorDiskKV.key` is a primary key, so the composer keys are distinct. -/
def Store.WF (s : Store) : Prop := (s.composers.map Prod.fst).Nodup

instance (s : Store) : Decidable s.WF := by unfold Store.WF; infer_instance

/-! ### `parse_search_query` (database.py)

`re.finditer(r'\"([^\"]+)\"|(\S+)', query)`: at each position the engine first
tries a quoted phrase (opening quote, one or more non-quote characters,
closing quote), else a maximal run of non-whitespace (which may itself contain
quotes).  The scan advances at least one character per step, so the input
length bounds the recursion (`fuel`). -/

/-- Characters before the first `"` and the remainder after it, if any. -/
def upToQuote : Str → Option (Str × Str)
  | [] => none
  | c :: cs =>
    if c == quoteC then some ([], cs)
    else (upToQuote cs).map (fun p => (c :: p.1, p.2))

def tokenizeAux : Nat → Str → List Str
  | 0, _ => []
  | _ + 1, [] => []
  | fuel + 1, c :: cs =>
    if isPySpace c then tokenizeAux fuel cs
    else
      let word := (c :: cs).takeWhile (fun x => !isPySpace x)
      let wrest := (c :: cs).dropWhile (fun x => !isPySpace x)
      if c == quoteC then
        match upToQuote cs with
        | some (content, rest) =>
          if content.isEmpty then word :: tokenizeAux fuel wrest
          else content :: tokenizeAux fuel rest
        | none => word :: tokenizeAux fuel wrest
      else word :: tokenizeAux fuel wrest

def parseSearchQuery (query : Str) : List Str := tokenizeAux query.length query

/-! ### `CursorDatabase.list_conversations` -/

/-- A row of the `messages` CTE: composer id parsed from the key,
`json_extract(value, '$.bubbleId')`, and the `has_text` flag
`TRIM(COALESCE(json_extract(value, '$.text'), '')) != ''`. -/
structure MsgRow where
  composer : Str
  bubbleId : Option Str
  hasText : Bool
deriving DecidableEq, Repr

def bubbleHasText (v : BubbleVal) : Bool := !(sqlTrim (v.text.getD [])).isEmpty

def messagesCTE (s : Store) : List MsgRow :=
  s.bubbles.map (fun r => ⟨r.1, r.2.2.bubbleId, bubbleHasText r.2.2⟩)

/-- All `bubbleId` values reachable under a composer's `codeBlockData`
(the `json_tree(c.value, '$.codeBlockData') ... WHERE jt.key = 'bubbleId'`
walk: in the schema those keys occur exactly on the per-block records). -/
def blockBubbleIds (v : ComposerVal) : List Str :=
  v.codeBlockData.flatMap (fun fe => fe.2.filterMap (fun be => be.2.bubbleId))

/-- The `code_block_bubbles` CTE: `SELECT DISTINCT composer_id, bubble_id`. -/
def codeBlockBubbles (s : Store) : List (Str × Str) :=
  distinctL (s.composers.flatMap (fun ce => (blockBubbleIds ce.2).map (fun b => (ce.1, b))))

/-- The `WHERE m.has_text = 1 OR cb.bubble_id IS NOT NULL` condition after the
`LEFT JOIN ... ON m.composer_id = cb.composer_id AND m.bubble_id = cb.bubble_id`
(a NULL `m.bubble_id` never joins; `code_block_bubbles` is distinct, so the
join cannot duplicate message rows). -/
def rowQualifies (s : Store) (m : MsgRow) : Bool :=
  m.hasText ||
    (match m.bubbleId with
     | none => false
     | some b => decide ((m.composer, b) ∈ codeBlockBubbles s))

/-- `non_empty_counts.msg_count` for one composer id (with `COALESCE(_, 0)`). -/
def msgCountSQL (s : Store) (cid : Str) : Nat :=
  ((messagesCTE s).filter (fun m => m.composer == cid && rowQualifies s m)).length

/-- The conversation dictionary built by `list_conversations`. -/
structure Conv where
  id : Str
  title : Str
  subtitle : Str
  created : Option Int
  message_count : Nat
  status : Str
  preview : Str
  model : Str
  is_archived : Bool
  total_lines_added : Int
  total_lines_removed : Int
deriving DecidableEq, Repr

/-- One iteration of the row loop in `list_conversations`.  `created` is
`datetime.fromtimestamp(created_at / 1000) if created_at else None`; the
conversion is strictly monotone, so the instant keeps the millisecond value. -/
def mkConv (s : Store) (cid : Str) (v : ComposerVal) : Conv :=
  { id := v.composerId.getD cid
    title := v.name.getD (strL ("(no title)"))
    subtitle := v.subtitle.getD []
    created := if v.createdAt != 0 then some (v.createdAt : Int) else none
    message_count := msgCountSQL s cid
    status := v.status.getD (strL ("unknown"))
    preview := (v.text.getD []).take 100
    model := v.modelName.getD (strL ("unknown"))
    is_archived := v.isArchived
    total_lines_added := v.totalLinesAdded
    total_lines_removed := v.totalLinesRemoved }

/-! ### `filter_by_time_range` (datetime_utils.py)

`parse_datetime` mixes regex dispatch, `strptime` formats and `datetime.now()`;
the claims quantify over parsable bound strings, so the parser is passed in as
an environment function `parse : Str → Option Int` and the filter logic is
modelled from the source.  `dateOf` plays `item.get(date_key)`; a `none`
models both a missing field and `None` (datetimes themselves are never falsy,
and typed rows satisfy the `isinstance` check). -/

/-- `since_dt = None; if since: since_dt = parse_datetime(since); if not
since_dt: raise` — the outer `none` is the raised `ValueError`, the inner
`none` an inactive bound. -/
def parseBound (parse : Str → Option Int) (bound : Option Str) : Option (Option Int) :=
  if pyTruthy bound then (parse (bound.getD [])).map some else some none

def filterByTimeRange (parse : Str → Option Int) (dateOf : α → Option Int)
    (items : List α) (since before : Option Str) : Option (List α) :=
  if !(pyTruthy since) && !(pyTruthy before) then some items
  else
    match parseBound parse since, parseBound parse before with
    | some sd, some bd =>
        some (items.filter (fun it =>
          match dateOf it with
          | none => false
          | some d =>
            (match sd with | none => true | some x => decide (x ≤ d)) &&
            (match bd with | none => true | some y => decide (d < y))))
    | _, _ => none

/-- `datetime.min` on the millisecond timeline (year 1; every stored instant,
built from a positive epoch-millisecond count, is strictly above it). -/
def dtMin : Int := -62135596800000

def sortKeyC (c : Conv) : Int := c.created.getD dtMin

/-- `sorted(..., key=lambda x: x['created'] or datetime.min, reverse=True)`:
stable descending order on the key. -/
def convGE (a b : Conv) : Prop := sortKeyC b ≤ sortKeyC a

instance : DecidableRel convGE := fun _ _ => Int.decLe _ _

instance : IsTotal Conv convGE :=
  ⟨fun a b => by unfold convGE; exact Or.symm (le_total (sortKeyC a) (sortKeyC b))⟩

instance : IsTrans Conv convGE :=
  ⟨fun a b c h1 h2 => by unfold convGE at *; exact le_trans h2 h1⟩

/-- The assembled row list of `list_conversations` before time filtering and
sorting.  `include_empty=False` uses an inner join against
`non_empty_counts`, i.e. drops rows whose count is 0. -/
def listConvsBase (s : Store) (includeEmpty : Bool) : List Conv :=
  if includeEmpty then s.composers.map (fun ce => mkConv s ce.1 ce.2)
  else (s.composers.map (fun ce => mkConv s ce.1 ce.2)).filter
    (fun c => c.message_count != 0)

/-- `CursorDatabase.list_conversations`.  `none` models a raised
`ValueError` from time parsing. -/
def listConversations (parse : Str → Option Int) (s : Store)
    (since before : Option Str) (includeEmpty : Bool) : Option (List Conv) :=
  (if pyTruthy since || pyTruthy before then
      filterByTimeRange parse (fun c => c.created) (listConvsBase s includeEmpty) since before
    else some (listConvsBase s includeEmpty)).map
    (fun l => List.insertionSort convGE l)

/-! ### `CursorDatabase.get_messages` -/

/-- The message dictionary (fields consumed by modelled code). -/
structure Msg where
  id : Option Str
  typ : Str
  created : Option Str
  text : Str
  rich_text : Str
  model : Option Str
deriving DecidableEq, Repr

def mkMsg (v : BubbleVal) : Msg :=
  { id := v.bubbleId
    typ := if v.typ == some 1 then strL ("user") else strL ("assistant")
    created := v.createdAt
    text := v.text.getD []
    rich_text := v.richText.getD []
    model := v.modelName }

/-- `get_messages`: bubbles under the conversation's key prefix, sorted by
`x['created'] if x['created'] else ''` (stable). -/
def getMessages (s : Store) (cid : Str) : List Msg :=
  List.insertionSort
    (fun m1 m2 => leStr (m1.created.getD []) (m2.created.getD []) = true)
    ((s.bubbles.filter (fun r => r.1 == cid)).map (fun r => mkMsg r.2.2))

/-! ### `CursorDatabase.search_conversations` -/

/-- `_search_code_diffs_sql`: code-block file locators (the keys of
`codeBlockData`) and `codeBlockDiff` rows (`originalText`, `modifiedText`,
and the raw JSON value itself). -/
def searchCodeDiffsSql (s : Store) (term : Str) : List Str :=
  distinctL ((s.composers.filter
      (fun ce => ce.2.codeBlockData.any (fun fe => termMatches fe.1 term))).map Prod.fst)
  ++ distinctL ((s.diffs.filter
      (fun dr => optMatches dr.2.2.originalText term || optMatches dr.2.2.modifiedText term
        || termMatches dr.2.2.raw term)).map Prod.fst)

/-- `_find_ids_for_term`: composer metadata (`name`, `subtitle`, `text`),
message text, and optionally the diff surfaces. -/
def findIdsForTerm (s : Store) (term : Str) (searchDiffs : Bool) : List Str :=
  let metaIds := distinctL ((s.composers.filter
      (fun ce => optMatches ce.2.name term || optMatches ce.2.subtitle term
        || optMatches ce.2.text term)).map Prod.fst)
  let withMsgs := metaIds ++ distinctL ((s.bubbles.filter
      (fun br => optMatches br.2.2.text term)).map Prod.fst)
  if searchDiffs then withMsgs ++ searchCodeDiffsSql s term else withMsgs

/-- The term loop of `search_conversations` after the first term:
intersect, and return `none` (the early `return []`) once empty. -/
def searchLoop (s : Store) (sd : Bool) (acc : List Str) : List Str → Option (List Str)
  | [] => some acc
  | t :: ts =>
    if (interL acc (findIdsForTerm s t sd)).isEmpty then none
    else searchLoop s sd (interL acc (findIdsForTerm s t sd)) ts

/-- The whole term loop (first term initialises the set; the empty term list
is unreachable here because the caller returns first). -/
def searchIds (s : Store) (sd : Bool) : List Str → Option (List Str)
  | [] => some []
  | t :: ts =>
    if (findIdsForTerm s t sd).isEmpty then none
    else searchLoop s sd (findIdsForTerm s t sd) ts

/-- `CursorDatabase.search_conversations`.  On an emptied intersection the
function returns `[]` before touching `list_conversations` (so before any
time-parse error); otherwise it filters the full listing by id membership. -/
def searchConversations (parse : Str → Option Int) (s : Store) (query : Str)
    (since before : Option Str) (includeEmpty searchDiffs : Bool) : Option (List Conv) :=
  if (parseSearchQuery query).isEmpty then some []
  else
    match searchIds s searchDiffs (parseSearchQuery query) with
    | none => some []
    | some ids =>
      (listConversations parse s since before includeEmpty).map
        (fun l => l.filter (fun conv => decide (conv.id ∈ ids)))

/-! ### `MarkdownFormatter.format_conversation` model propagation
(formatters.py lines 116-124) -/

def effectiveModelsGo (current : Option Str) : List Msg → List (Option Str)
  | [] => []
  | m :: ms =>
    let cur2 :=
      if pyTruthy m.model && !(m.model == some (strL ("default"))) then m.model else current
    cur2 :: effectiveModelsGo cur2 ms

/-- Effective model per message: forward propagation of
`if msg_model and msg_model != 'default'` with initial `None`. -/
def effectiveModels (msgs : List Msg) : List (Option Str) := effectiveModelsGo none msgs

/-! ### `ConversationStats` (stats.py)

Metric values are exact rationals (`c.get(metric, 0)` is abstracted as a
function `metricOf : Conv → ℚ`; the claims are about `message_count`, an
integer).  `statistics.median` of integers is exact in binary floating point
(the even case averages two values, division by 2 is exact), and the
percentile indices `int(n * 0.25)`, `int(n * 0.75)`, `int(n * 0.9)` equal
`n / 4`, `3 * n / 4`, `9 * n / 10` in natural division for every feasible
sample size (the products round within the unit interval of the true value).
`mean` is modelled exactly (ignoring the final float rounding of
`statistics.mean`); `stdev` (a square root) and `label` (presentation
`strftime` text) are omitted: no modelled claim observes them. -/

structure StatResult where
  count : Nat := 0
  total : ℚ := 0
  mean : ℚ := 0
  median : ℚ := 0
  minV : ℚ := 0
  maxV : ℚ := 0
  p25 : ℚ := 0
  p75 : ℚ := 0
  p90 : ℚ := 0
  distribution : List (Str × Nat) := []
  start_date : Option Int := none
  end_date : Option Int := none
deriving Repr

/-- `min(values)` over a non-empty list (`0` is unreachable). -/
def minListQ : List ℚ → ℚ
  | [] => 0
  | v :: vs => vs.foldl min v

/-- `max(values)` over a non-empty list (`0` is unreachable). -/
def maxListQ : List ℚ → ℚ
  | [] => 0
  | v :: vs => vs.foldl max v

def sumListQ (l : List ℚ) : ℚ := l.foldl (· + ·) 0

/-- `statistics.median`: middle of the sorted values, averaging the two
middles for even length. -/
def medianQ (values : List ℚ) : ℚ :=
  let sorted := List.insertionSort (· ≤ ·) values
  let n := values.length
  if n % 2 == 1 then sorted.getD (n / 2) 0
  else (sorted.getD (n / 2 - 1) 0 + sorted.getD (n / 2) 0) / 2

/-- Buckets are `(name, low, high)` with `high = none` for `float('inf')`. -/
def bucketMem (low : ℚ) (high : Option ℚ) (v : ℚ) : Bool :=
  decide (low ≤ v) && (match high with | none => true | some h => decide (v ≤ h))

def DEFAULT_BUCKETS : List (Str × ℚ × Option ℚ) :=
  [ (strL ("1-5"), 1, some 5)
  , (strL ("6-15"), 6, some 15)
  , (strL ("16-30"), 16, some 30)
  , (strL ("31-50"), 31, some 50)
  , (strL ("51-100"), 51, some 100)
  , (strL ("100+"), 101, none) ]

/-- `_compute_distribution`: first matching bucket wins, so values counted by
an earlier bucket are not passed on. -/
def computeDistribution : List ℚ → List (Str × ℚ × Option ℚ) → List (Str × Nat)
  | _, [] => []
  | values, b :: bs =>
    (b.1, (values.filter (fun v => bucketMem b.2.1 b.2.2 v)).length)
      :: computeDistribution (values.filter (fun v => !bucketMem b.2.1 b.2.2 v)) bs

/-- `ConversationStats.compute` (`buckets = buckets or DEFAULT_BUCKETS`). -/
def compute (metricOf : Conv → ℚ) (convs : List Conv)
    (buckets? : Option (List (Str × ℚ × Option ℚ)) := none) : StatResult :=
  if convs.isEmpty then {} else
    let buckets := match buckets? with
      | some (b :: bs) => b :: bs
      | _ => DEFAULT_BUCKETS
    let values := convs.map metricOf
    let n := values.length
    let sorted := List.insertionSort (· ≤ ·) values
    let med := medianQ values
    let maxv := maxListQ values
    let dates := convs.filterMap (fun c => c.created)
    { count := n
      total := sumListQ values
      mean := sumListQ values / n
      median := med
      minV := minListQ values
      maxV := maxv
      p25 := if 4 ≤ n then sorted.getD (n / 4) 0 else med
      p75 := if 4 ≤ n then sorted.getD (3 * n / 4) 0 else med
      p90 := if 10 ≤ n then sorted.getD (9 * n / 10) 0 else maxv
      distribution := computeDistribution values buckets
      start_date := match dates with | [] => none | d :: ds => some (ds.foldl min d)
      end_date := match dates with | [] => none | d :: ds => some (ds.foldl max d) }

/-- Local midnight on the millisecond timeline
(`reference.replace(hour=0, minute=0, second=0, microsecond=0)`). -/
def floorDay (t : Int) : Int := 86400000 * (Int.fdiv t 86400000)

/-- Python `date.weekday()` (Monday = 0); 1970-01-01 was a Thursday. -/
def weekdayOf (t : Int) : Int := (Int.fdiv t 86400000 + 3) % 7

/-- `_get_period_bounds` (labels omitted as presentation).  `none` models the
`ValueError` for an unknown period. -/
def getPeriodBounds (reference : Int) (period : Str) (offset : Nat) : Option (Int × Int) :=
  if period = strL ("week") then
    let daysSinceMonday := weekdayOf reference
    let currentMonday := floorDay reference - 86400000 * daysSinceMonday
    let start := currentMonday - 7 * 86400000 * (offset : Int)
    some (start, start + (6 * 86400000 + (23 * 3600000 + 59 * 60000 + 59000)))
  else if period = strL ("day") then
    let start := floorDay reference - 86400000 * (offset : Int)
    some (start, start + (23 * 3600000 + 59 * 60000 + 59000))
  else none

/-- `ConversationStats.by_period`: one `compute` per period over the
conversations whose instant lies in the inclusive `[start, end]` window,
most recent period first. -/
def byPeriod (convs : List Conv) (period : Str) (metricOf : Conv → ℚ)
    (numPeriods : Nat) (reference : Int) : Option (List StatResult) :=
  (List.range numPeriods).mapM (fun i =>
    (getPeriodBounds reference period i).map (fun se =>
      let periodConvs := convs.filter (fun c =>
        match c.created with
        | none => false
        | some d => decide (se.1 ≤ d) && decide (d ≤ se.2))
      { compute metricOf periodConvs with
          start_date := some se.1, end_date := some se.2 }))

/-! ### Specification-side definitions (the claims' vocabulary) -/

def isMetaC (c : Nat) : Bool := c == percentC || c == underscoreC || c == backslashC

/-- Per-character escaping (the composition of the three `replace` calls). -/
def escC (c : Nat) : Str := if isMetaC c then [backslashC, c] else [c]

def hasMetaTerm (t : Str) : Bool := t.any isMetaC

/-- "The term occurs case-insensitively as an unanchored substring of the
content" (ASCII case folding, as SQLite's `LOWER`). -/
def containsI (content term : Str) : Bool := containsSeq (lowerL term) (lowerL content)

def optContainsI (content? : Option Str) (term : Str) : Bool :=
  content?.any (fun c => containsI c term)

/-- C1's counting predicate: non-empty (after space trimming) text, or at
least one code edit of the conversation whose embedded bubble-id equals the
message's id (both present). -/
def specMsgNonEmpty (v : ComposerVal) (m : Msg) : Bool :=
  !(sqlTrim m.text).isEmpty ||
    v.codeBlockData.any (fun fe => fe.2.any (fun be =>
      match be.2.bubbleId, m.id with
      | some b, some mid => b == mid
      | _, _ => false))

/-- The number of the conversation's messages (per the key-prefix convention)
with non-empty text or a linked code edit. -/
def specNonEmptyCount (s : Store) (cid : Str) (v : ComposerVal) : Nat :=
  (getMessages s cid).countP (specMsgNonEmpty v)

/-- Membership in an optional result list (an errored call has no members). -/
def memR (c : Conv) (r : Option (List Conv)) : Prop := c ∈ r.getD []

instance (c : Conv) (r : Option (List Conv)) : Decidable (memR c r) := by
  unfold memR; infer_instance

/-- C6's declarative keep-predicate: a valid instant `d` with `since ≤ d`
(inclusive) and `d < before` (exclusive), for whichever bounds are given. -/
def timeKeep (parse : Str → Option Int) (dateOf : α → Option Int)
    (since before : Option Str) (it : α) : Bool :=
  match dateOf it with
  | none => false
  | some d =>
    (match (if pyTruthy since then parse (since.getD []) else none) with
     | none => true
     | some sd => decide (sd ≤ d)) &&
    (match (if pyTruthy before then parse (before.getD []) else none) with
     | none => true
     | some bd => decide (d < bd))

/-- C4's claimed match surfaces for a term with `searchDiffs = true`: title,
subtitle, preview-source text, message text, code-edit file locator, and diff
original/modified text.  (The conversation's text field is what the 100-char
preview is drawn from.) -/
def claimSurfacesB (s : Store) (cid : Str) (t : Str) : Bool :=
  s.composers.any (fun ce => ce.1 == cid &&
      (optContainsI ce.2.name t || optContainsI ce.2.subtitle t || optContainsI ce.2.text t))
  || s.bubbles.any (fun br => br.1 == cid && optContainsI br.2.2.text t)
  || s.composers.any (fun ce => ce.1 == cid &&
      ce.2.codeBlockData.any (fun fe => containsI fe.1 t))
  || s.diffs.any (fun dr => dr.1 == cid &&
      (optContainsI dr.2.2.originalText t || optContainsI dr.2.2.modifiedText t))

/-- The amended surfaces: additionally the raw JSON text of a diff record
(the third `LOWER(value) LIKE ...` disjunct of `_search_code_diffs_sql`). -/
def amendedSurfacesB (s : Store) (cid : Str) (t : Str) : Bool :=
  claimSurfacesB s cid t
    || s.diffs.any (fun dr => dr.1 == cid && containsI dr.2.2.raw t)

/-- C8: a message carries an explicit model override (a non-empty model value
other than the literal `"default"`; in the store an absent model surfaces as
`None` or `""`). -/
def isOverride (m : Msg) : Bool :=
  match m.model with
  | none => false
  | some s => !s.isEmpty && !(s == strL ("default"))

/-- The override in force after a prefix of messages: the model of the most
recent override message, if any. -/
def lastOverrideModel (msgs : List Msg) : Option Str :=
  ((msgs.filter isOverride).getLast?).bind Msg.model

/-! ### Concrete instances used by witnesses and counterexamples -/

/-- A parse environment that accepts nothing (never consulted in instances
whose filters are `None`). -/
def parse0 : Str → Option Int := fun _ => none

def emptyComposer : ComposerVal :=
  { composerId := none, name := none, subtitle := none, text := none,
    createdAt := 0, status := none, isArchived := false, modelName := none,
    totalLinesAdded := 0, totalLinesRemoved := 0, codeBlockData := [] }

def emptyBubble : BubbleVal :=
  { bubbleId := none, typ := none, createdAt := none, text := none,
    richText := none, modelName := none }

/-- C2/C3 instance: one conversation whose title contains `a` and `b` but not
the phrase `a b`. -/
def composerAB : ComposerVal := { emptyComposer with name := some (strL ("a x b")), createdAt := 1000 }

def storeAB : Store := { composers := [(strL ("c1"), composerAB)], bubbles := [], diffs := [] }

def convAB : Conv := mkConv storeAB (strL ("c1")) composerAB

/-- C1 instance: a text message, an empty message linked to a code edit, and a
space-only unlinked message. -/
def composerS1 : ComposerVal :=
  { emptyComposer with
      createdAt := 5000,
      codeBlockData := [(strL ("file:///a.py"), [(strL ("blk1"), ⟨some (strL ("b2"))⟩)])] }

def storeS1 : Store :=
  { composers := [(strL ("c1"), composerS1)]
    bubbles :=
      [ (strL ("c1"), strL ("b1"),
          { emptyBubble with bubbleId := some (strL ("b1")), text := some (strL ("hello")) })
      , (strL ("c1"), strL ("b2"),
          { emptyBubble with bubbleId := some (strL ("b2")) })
      , (strL ("c1"), strL ("b3"),
          { emptyBubble with bubbleId := some (strL ("b3")), text := some (strL (" ")) }) ]
    diffs := [] }

/-- C4 instance: the term `changes` occurs only in the raw JSON of a diff
record, in none of the claimed surfaces. -/
def storeS4 : Store :=
  { composers := [(strL ("c1"), { emptyComposer with name := some (strL ("title")) })]
    bubbles := []
    diffs := [(strL ("c1"), strL ("d1"),
      { originalText := some (strL ("aaa")), modifiedText := some (strL ("bbb")),
        raw := strL ("changes:original aaa modified bbb") })] }

/-- C6 instance items: instants paired through the identity projection. -/
def items6 : List (Option Int) := [some 500, some 1000, some 1500, none]

def parse6 : Str → Option Int := fun s => if s == strL ("2d") then some 1000 else none

/-- C7 instance: three conversations with message counts 1, 2, 3. -/
def convN (cid : Str) (n : Nat) : Conv :=
  { id := cid, title := [], subtitle := [], created := none, message_count := n,
    status := [], preview := [], model := [], is_archived := false,
    total_lines_added := 0, total_lines_removed := 0 }

def convs3 : List Conv := [convN (strL ("x")) 1, convN (strL ("y")) 2, convN (strL ("z")) 3]

def metricCount : Conv → ℚ := fun c => (c.message_count : ℚ)

/-- C8 instance: overrides `[gpt-4, (none), claude-3-5]`. -/
def msgWithModel (m : Option Str) : Msg :=
  { id := none, typ := strL ("assistant"), created := none, text := [],
    rich_text := [], model := m }

def msgs8 : List Msg :=
  [msgWithModel (some (strL ("gpt-4"))), msgWithModel none,
    msgWithModel (some (strL ("claude-3-5")))]

/-- C9 instance: creation instants 2000, absent, 1000. -/
def storeS9 : Store :=
  { composers :=
      [ (strL ("c1"), { emptyComposer with createdAt := 2000 })
      , (strL ("c2"), { emptyComposer with createdAt := 0 })
      , (strL ("c3"), { emptyComposer with createdAt := 1000 }) ]
    bubbles := []
    diffs := [] }

def listS9 : List Conv :=
  [ mkConv storeS9 (strL ("c1")) { emptyComposer with createdAt := 2000 }
  , mkConv storeS9 (strL ("c3")) { emptyComposer with createdAt := 1000 }
  , mkConv storeS9 (strL ("c2")) { emptyComposer with createdAt := 0 } ]

/-- C10 instance: a midnight-aligned reference and a conversation created half
a second before it (23:59:59.500 of the previous day). -/
def refD : Int := 86400000 * 20000

def convGap : Conv :=
  { id := strL ("g"), title := [], subtitle := [], created := some (refD - 500),
    message_count := 5, status := [], preview := [], model := [],
    is_archived := false, total_lines_added := 0, total_lines_removed := 0 }

/-! ## Lemmas: LIKE matching with the code's escaping is literal substring
containment -/

theorem percentC_val : percentC = 37 := rfl

theorem underscoreC_val : underscoreC = 95 := rfl

theorem backslashC_val : backslashC = 92 := rfl

theorem list_any_congr {l : List α} {p q : α → Bool} (h : ∀ x ∈ l, p x = q x) :
    l.any p = l.any q := by
  induction l with
  | nil => rfl
  | cons a as ih =>
    simp only [List.any_cons, h a (by simp)]
    rw [ih (fun x hx => h x (by simp [hx]))]

theorem tailsL_any_isEmpty (c : Str) : (tailsL c).any (fun s => s.isEmpty) = true := by
  induction c with
  | nil => rfl
  | cons x cs ih => simp [tailsL, List.any_cons, ih]

theorem likeMatch_percent (ps : Str) (c : Str) :
    likeMatch (percentC :: ps) c = (tailsL c).any (fun suf => likeMatch ps suf) := by
  rw [likeMatch.eq_def]
  cases c <;> cases ps <;> simp

theorem likeMatch_escaped (a : Nat) (ps c : Str) :
    likeMatch (backslashC :: a :: ps) c =
      (match c with | [] => false | ce :: cs => a == ce && likeMatch ps cs) := by
  rw [likeMatch.eq_def]
  cases c <;> simp [backslashC_val, percentC_val]

theorem likeMatch_literal (a : Nat) (ps c : Str) (ha : isMetaC a = false) :
    likeMatch (a :: ps) c =
      (match c with | [] => false | ce :: cs => a == ce && likeMatch ps cs) := by
  simp only [isMetaC, Bool.or_eq_false_iff, beq_eq_false_iff_ne, ne_eq] at ha
  rw [likeMatch.eq_def]
  cases c <;> cases ps <;> simp [ha.1.1, ha.1.2, ha.2]

theorem replaceChar_append (t : Nat) (r : Str) (x y : Str) :
    replaceChar t r (x ++ y) = replaceChar t r x ++ replaceChar t r y := by
  induction x with
  | nil => rfl
  | cons a as ih => simp [replaceChar, ih]

theorem escapeLikeTerm_nil : escapeLikeTerm [] = [] := rfl

theorem escapeLikeTerm_cons (a : Nat) (t : Str) :
    escapeLikeTerm (a :: t) = escC a ++ escapeLikeTerm t := by
  by_cases h1 : a = backslashC
  · subst h1
    simp [escapeLikeTerm, escC, replaceChar, replaceChar_append, isMetaC,
      backslashC_val, percentC_val, underscoreC_val]
  · by_cases h2 : a = percentC
    · subst h2
      simp [escapeLikeTerm, escC, replaceChar, replaceChar_append, isMetaC,
        backslashC_val, percentC_val, underscoreC_val]
    · by_cases h3 : a = underscoreC
      · subst h3
        simp [escapeLikeTerm, escC, replaceChar, replaceChar_append, isMetaC,
          backslashC_val, percentC_val, underscoreC_val]
      · have hm : isMetaC a = false := by
          simp [isMetaC, h1, h2, h3]
        simp [escapeLikeTerm, escC, replaceChar, replaceChar_append, hm, h1, h2, h3]

theorem lowerChar_meta (a : Nat) (h : isMetaC a = true) : lowerChar a = a := by
  simp only [isMetaC, Bool.or_eq_true, beq_iff_eq, percentC_val, underscoreC_val,
    backslashC_val] at h
  rcases h with (h | h) | h <;> subst h <;> rfl

theorem isMetaC_lowerChar (a : Nat) : isMetaC (lowerChar a) = isMetaC a := by
  unfold lowerChar
  by_cases h : (65 ≤ a && a ≤ 90) = true
  · rw [if_pos h]
    simp only [Bool.and_eq_true, decide_eq_true_eq] at h
    simp only [isMetaC, percentC_val, underscoreC_val, backslashC_val]
    have h1 : (a + 32 == 37) = false := by simp; omega
    have h2 : (a + 32 == 95) = false := by simp; omega
    have h3 : (a + 32 == 92) = false := by simp; omega
    have h4 : (a == 37) = false := by simp; omega
    have h5 : (a == 95) = false := by simp; omega
    have h6 : (a == 92) = false := by simp; omega
    simp [h1, h2, h3, h4, h5, h6]
  · rw [if_neg h]

theorem lowerL_escC (a : Nat) : lowerL (escC a) = escC (lowerChar a) := by
  by_cases hm : isMetaC a = true
  · simp [escC, hm, lowerChar_meta a hm, lowerL, isMetaC_lowerChar]
    rfl
  · have hm' : isMetaC a = false := by simpa using hm
    simp [escC, hm', lowerL, isMetaC_lowerChar, hm]

theorem lowerL_escape (t : Str) : lowerL (escapeLikeTerm t) = escapeLikeTerm (lowerL t) := by
  induction t with
  | nil => rfl
  | cons a as ih =>
    have : lowerL (a :: as) = lowerChar a :: lowerL as := rfl
    rw [escapeLikeTerm_cons, this, escapeLikeTerm_cons]
    unfold lowerL
    rw [List.map_append]
    show lowerL (escC a) ++ lowerL (escapeLikeTerm as) = _
    rw [lowerL_escC, ih]
    rfl

theorem likeMatch_escBody (t c : Str) :
    likeMatch (escapeLikeTerm t ++ [percentC]) c = startsW t c := by
  induction t generalizing c with
  | nil =>
    rw [escapeLikeTerm_nil, List.nil_append, likeMatch_percent]
    have : ((tailsL c).any fun suf => likeMatch [] suf)
        = ((tailsL c).any fun s => s.isEmpty) := by
      exact list_any_congr (fun x _ => rfl)
    rw [this, tailsL_any_isEmpty]
    rfl
  | cons a t ih =>
    rw [escapeLikeTerm_cons, List.append_assoc]
    by_cases hm : isMetaC a = true
    · simp only [escC, if_pos hm, List.cons_append, List.nil_append]
      rw [likeMatch_escaped]
      cases c with
      | nil => rfl
      | cons ce cs => simp [startsW, ih]
    · have hm' : isMetaC a = false := by simpa using hm
      simp only [escC, if_neg (by simp [hm'] : ¬isMetaC a = true), List.cons_append,
        List.nil_append]
      rw [likeMatch_literal a _ c hm']
      cases c with
      | nil => rfl
      | cons ce cs => simp [startsW, ih]

/-- The code's `LOWER(content) LIKE LOWER('%' || escaped || '%') ESCAPE '\'`
matching coincides with case-insensitive unanchored literal substring
containment, for every term and content. -/
theorem termMatches_eq_containsI (content term : Str) :
    termMatches content term = containsI content term := by
  unfold termMatches containsI likePattern
  have hpat : lowerL (percentC :: (escapeLikeTerm term ++ [percentC]))
      = percentC :: (escapeLikeTerm (lowerL term) ++ [percentC]) := by
    unfold lowerL
    rw [List.map_cons, List.map_append]
    show _ :: (lowerL (escapeLikeTerm term) ++ lowerL [percentC]) = _
    rw [lowerL_escape]
    rfl
  rw [hpat, likeMatch_percent]
  unfold containsSeq
  exact list_any_congr (fun x _ => likeMatch_escBody (lowerL term) x)

theorem optMatches_eq_optContainsI (o : Option Str) (t : Str) :
    optMatches o t = optContainsI o t := by
  cases o <;> simp [optMatches, optContainsI, termMatches_eq_containsI]

/-- Claim C5: for every search term containing `%`, `_` or `\`, the code's
LIKE-based matching is literal: the term matches a field iff the field
contains the term's characters verbatim (ASCII-case-insensitively); in
particular a `%` in a term matches only a literal `%`, never acting as a
wildcard. -/
theorem c5_metacharacter_terms_match_literally (content term : Str)
    (_hmeta : hasMetaTerm term = true) :
    termMatches content term = containsI content term :=
  termMatches_eq_containsI content term

theorem c5_metacharacter_terms_match_literally_witness :
    hasMetaTerm (strL ("100%")) = true ∧
      termMatches (strL ("a 100% b")) (strL ("100%"))
        = containsI (strL ("a 100% b")) (strL ("100%")) ∧
      termMatches (strL ("a 100% b")) (strL ("100%")) = true ∧
      termMatches (strL ("a 100x b")) (strL ("100%")) = false :=
  ⟨by decide, c5_metacharacter_terms_match_literally (strL ("a 100% b")) (strL ("100%"))
      (by decide), by decide, by decide⟩

/-! ## Lemmas: membership in the search machinery -/

theorem distinctAux_mem [DecidableEq α] (l : List α) (x : α) :
    ∀ seen, (x ∈ distinctAux seen l ↔ x ∈ l ∧ x ∉ seen) := by
  induction l with
  | nil => intro seen; simp [distinctAux]
  | cons a as ih =>
    intro seen
    simp only [distinctAux]
    by_cases h : a ∈ seen
    · rw [if_pos h, ih seen, List.mem_cons]
      constructor
      · exact fun hh => ⟨Or.inr hh.1, hh.2⟩
      · rintro ⟨hor, hns⟩
        rcases hor with rfl | hx
        · exact absurd h hns
        · exact ⟨hx, hns⟩
    · rw [if_neg h]
      simp only [List.mem_cons, ih (a :: seen)]
      constructor
      · rintro (rfl | ⟨hx, hns⟩)
        · exact ⟨Or.inl rfl, h⟩
        · exact ⟨Or.inr hx, fun hs => hns (Or.inr hs)⟩
      · rintro ⟨rfl | hx, hns⟩
        · exact Or.inl rfl
        · rcases eq_or_ne x a with rfl | hxa
          · exact Or.inl rfl
          · exact Or.inr ⟨hx, fun hs => hs.elim hxa hns⟩

theorem distinctL_mem [DecidableEq α] (l : List α) (x : α) :
    x ∈ distinctL l ↔ x ∈ l := by
  simp [distinctL, distinctAux_mem l x []]

theorem interL_mem [DecidableEq α] (a b : List α) (x : α) :
    x ∈ interL a b ↔ x ∈ a ∧ x ∈ b := by
  simp [interL, List.mem_filter]

/-- Claim C4 counterexample: with `search_diffs=true` the term `changes`
matches conversation `c1` of `storeS4` although it occurs in none of the
claimed surfaces (title, subtitle, preview text, message text, code-edit file
path, diff original/modified text) — it occurs only in the raw JSON of the
stored diff record. -/
theorem c4_claimed_surfaces_counterexample :
    strL ("c1") ∈ findIdsForTerm storeS4 (strL ("changes")) true
      ∧ claimSurfacesB storeS4 (strL ("c1")) (strL ("changes")) = false := by
  constructor
  · decide
  · decide

/-- Claim C4 (amended): with `search_diffs=true`, a term matches a
conversation iff it occurs case-insensitively as an unanchored substring of
the conversation's title, subtitle, or preview-source text, of some message's
text, of some code-edit file locator, of the diff's original/modified text,
or anywhere in the raw JSON text of a stored diff record — and nothing else
causes a match. -/
theorem c4_term_match_surfaces_amended (s : Store) (t cid : Str) :
    cid ∈ findIdsForTerm s t true ↔ amendedSurfacesB s cid t = true := by
  unfold findIdsForTerm searchCodeDiffsSql amendedSurfacesB claimSurfacesB
  simp only [reduceIte, List.append_eq, List.mem_append, distinctL_mem, List.mem_map,
    List.mem_filter, Bool.or_eq_true, Bool.and_eq_true, List.any_eq_true, beq_iff_eq,
    optMatches_eq_optContainsI, termMatches_eq_containsI]
  constructor
  · rintro ((⟨a, ⟨ha, hp⟩, rfl⟩ | ⟨a, ⟨ha, hp⟩, rfl⟩) |
        (⟨a, ⟨ha, hp⟩, rfl⟩ | ⟨a, ⟨ha, hp⟩, rfl⟩))
    · exact Or.inl (Or.inl (Or.inl (Or.inl ⟨a, ha, rfl, hp⟩)))
    · exact Or.inl (Or.inl (Or.inl (Or.inr ⟨a, ha, rfl, hp⟩)))
    · exact Or.inl (Or.inl (Or.inr ⟨a, ha, rfl, hp⟩))
    · rcases hp with (hp | hp) | hp
      · exact Or.inl (Or.inr ⟨a, ha, rfl, Or.inl hp⟩)
      · exact Or.inl (Or.inr ⟨a, ha, rfl, Or.inr hp⟩)
      · exact Or.inr ⟨a, ha, rfl, hp⟩
  · rintro ((((⟨x, hx, rfl, hp⟩ | ⟨x, hx, rfl, hp⟩) | ⟨x, hx, rfl, hp⟩)
        | ⟨x, hx, rfl, hp⟩) | ⟨x, hx, rfl, hp⟩)
    · exact Or.inl (Or.inl ⟨x, ⟨hx, hp⟩, rfl⟩)
    · exact Or.inl (Or.inr ⟨x, ⟨hx, hp⟩, rfl⟩)
    · exact Or.inr (Or.inl ⟨x, ⟨hx, hp⟩, rfl⟩)
    · rcases hp with hp | hp
      · exact Or.inr (Or.inr ⟨x, ⟨hx, Or.inl (Or.inl hp)⟩, rfl⟩)
      · exact Or.inr (Or.inr ⟨x, ⟨hx, Or.inl (Or.inr hp)⟩, rfl⟩)
    · exact Or.inr (Or.inr ⟨x, ⟨hx, Or.inr hp⟩, rfl⟩)

/-! ## Lemmas: the SQL message count equals the per-conversation count -/

theorem nodup_fst_eq {α β : Type _} {l : List (α × β)} (h : (l.map Prod.fst).Nodup)
    {k : α} {v v' : β} (h1 : (k, v) ∈ l) (h2 : (k, v') ∈ l) : v = v' := by
  induction l with
  | nil => cases h1
  | cons p ps ih =>
    rw [List.map_cons, List.nodup_cons] at h
    rcases List.mem_cons.mp h1 with e1 | m1
    · rcases List.mem_cons.mp h2 with e2 | m2
      · exact congrArg Prod.snd (e1.trans e2.symm)
      · exact absurd ((congrArg Prod.fst e1) ▸ List.mem_map.mpr ⟨(k, v'), m2, rfl⟩) h.1
    · rcases List.mem_cons.mp h2 with e2 | m2
      · exact absurd ((congrArg Prod.fst e2) ▸ List.mem_map.mpr ⟨(k, v), m1, rfl⟩) h.1
      · exact ih h.2 m1 m2

theorem mem_blockBubbleIds (v : ComposerVal) (b : Str) :
    b ∈ blockBubbleIds v
      ↔ ∃ fe ∈ v.codeBlockData, ∃ be ∈ fe.2, be.2.bubbleId = some b := by
  simp [blockBubbleIds, List.mem_flatMap, List.mem_filterMap]

theorem cbb_iff (s : Store) (hwf : s.WF) {cid : Str} {v : ComposerVal}
    (hv : (cid, v) ∈ s.composers) (b : Str) :
    (cid, b) ∈ codeBlockBubbles s ↔ b ∈ blockBubbleIds v := by
  unfold codeBlockBubbles
  rw [distinctL_mem, List.mem_flatMap]
  constructor
  · rintro ⟨ce, hce, hmem⟩
    rw [List.mem_map] at hmem
    obtain ⟨b', hb', heq⟩ := hmem
    have h1 : ce.1 = cid := congrArg Prod.fst heq
    have h2 : b' = b := congrArg Prod.snd heq
    subst h2
    have hce' : (cid, ce.2) ∈ s.composers := by
      have : ce = (cid, ce.2) := Prod.ext h1 rfl
      rwa [this] at hce
    have hev : ce.2 = v := nodup_fst_eq hwf hce' hv
    rwa [hev] at hb'
  · intro hb
    exact ⟨(cid, v), hv, List.mem_map.mpr ⟨b, hb, rfl⟩⟩

theorem bubbleMatch_eq_beq (o : Option Str) (b : Str) :
    (match o, some b with
      | some b', some mid => b' == mid
      | _, _ => false) = (o == some b) := by
  cases o <;> rfl

theorem bubbleMatch_none (o : Option Str) :
    (match o, (none : Option Str) with
      | some b', some mid => b' == mid
      | _, _ => false) = false := by
  cases o <;> rfl

theorem specMsgNonEmpty_eq_rowQualifies (s : Store) (hwf : s.WF) {cid : Str}
    {v : ComposerVal} (hv : (cid, v) ∈ s.composers) (bv : BubbleVal) :
    specMsgNonEmpty v (mkMsg bv) = rowQualifies s ⟨cid, bv.bubbleId, bubbleHasText bv⟩ := by
  unfold specMsgNonEmpty rowQualifies
  congr 1
  cases hb : bv.bubbleId with
  | none =>
    have hid : (mkMsg bv).id = none := by simp [mkMsg, hb]
    rw [Bool.eq_iff_iff]
    simp [List.any_eq_true, hid, bubbleMatch_none, hb]
  | some b =>
    have hid : (mkMsg bv).id = some b := by simp [mkMsg, hb]
    rw [Bool.eq_iff_iff]
    simp only [List.any_eq_true, hid, bubbleMatch_eq_beq, beq_iff_eq,
      decide_eq_true_eq, cbb_iff s hwf hv, mem_blockBubbleIds]

theorem msgCountSQL_eq_spec (s : Store) (hwf : s.WF) {cid : Str} {v : ComposerVal}
    (hv : (cid, v) ∈ s.composers) :
    msgCountSQL s cid = specNonEmptyCount s cid v := by
  unfold msgCountSQL specNonEmptyCount getMessages messagesCTE
  rw [← List.countP_eq_length_filter, List.countP_map,
    (List.perm_insertionSort _ _).countP_eq, List.countP_map, List.countP_filter]
  apply List.countP_congr
  intro r _
  by_cases hcid : r.1 = cid
  · have hb : (r.1 == cid) = true := by simp [hcid]
    simp only [Function.comp_apply, hb, Bool.true_and, Bool.and_true]
    rw [← hcid] at hv
    rw [specMsgNonEmpty_eq_rowQualifies s hwf hv r.2.2]
  · have hb : (r.1 == cid) = false := by simp [hcid]
    simp [Function.comp_apply, hb]

/-! ## Lemmas: provenance of listing rows -/

theorem filterByTimeRange_sublist {parse : Str → Option Int} {dateOf : α → Option Int}
    {items : List α} {since before : Option Str} {l : List α}
    (h : filterByTimeRange parse dateOf items since before = some l) : l.Sublist items := by
  unfold filterByTimeRange at h
  split at h
  · obtain rfl := Option.some.inj h
    exact List.Sublist.refl items
  · split at h
    · obtain rfl := Option.some.inj h
      exact List.filter_sublist items
    · exact absurd h (by simp)

theorem mem_listConvsBase {s : Store} {ie : Bool} {c : Conv}
    (hc : c ∈ listConvsBase s ie) :
    ∃ cid v, (cid, v) ∈ s.composers ∧ c = mkConv s cid v := by
  unfold listConvsBase at hc
  split at hc
  · rw [List.mem_map] at hc
    obtain ⟨ce, hce, rfl⟩ := hc
    exact ⟨ce.1, ce.2, by rwa [Prod.mk.eta], rfl⟩
  · rw [List.mem_filter] at hc
    rw [List.mem_map] at hc
    obtain ⟨⟨ce, hce, rfl⟩, _⟩ := hc
    exact ⟨ce.1, ce.2, by rwa [Prod.mk.eta], rfl⟩

theorem mem_listConversations {parse : Str → Option Int} {s : Store}
    {since before : Option Str} {ie : Bool} {L : List Conv}
    (h : listConversations parse s since before ie = some L) {c : Conv} (hc : c ∈ L) :
    ∃ cid v, (cid, v) ∈ s.composers ∧ c = mkConv s cid v := by
  unfold listConversations at h
  rw [Option.map_eq_some'] at h
  obtain ⟨l2, hl2, rfl⟩ := h
  have hc2 : c ∈ l2 := (List.mem_insertionSort convGE).mp hc
  have hbase : c ∈ listConvsBase s ie := by
    split at hl2
    · exact List.Sublist.mem hc2 (filterByTimeRange_sublist hl2)
    · obtain rfl := Option.some.inj hl2
      exact hc2
  exact mem_listConvsBase hbase

/-- Claim C1: for every conversation returned by
`list_conversations(include_empty=False)` with no time filters, the derived
`message_count` equals the number of that conversation's messages — the
bubbles under its key prefix, as `get_messages` returns them — that have
non-empty text (after space trimming, the code's notion of an empty streaming
artifact) or at least one linked code edit, where a code edit is linked to a
message by equality of the edit's embedded bubble-id field with the message's
id. -/
theorem c1_message_count_counts_nonempty_messages
    (parse : Str → Option Int) (s : Store) (hwf : s.WF) (L : List Conv)
    (hL : listConversations parse s none none false = some L)
    (c : Conv) (hc : c ∈ L) :
    ∃ cid v, (cid, v) ∈ s.composers ∧ c = mkConv s cid v ∧
      c.message_count = specNonEmptyCount s cid v := by
  obtain ⟨cid, v, hv, rfl⟩ := mem_listConversations hL hc
  refine ⟨cid, v, hv, rfl, ?_⟩
  show msgCountSQL s cid = _
  exact msgCountSQL_eq_spec s hwf hv

theorem c1_message_count_counts_nonempty_messages_witness :
    storeS1.WF ∧
      listConversations parse0 storeS1 none none false
        = some [mkConv storeS1 (strL ("c1")) composerS1] ∧
      (∃ cid v, (cid, v) ∈ storeS1.composers
          ∧ mkConv storeS1 (strL ("c1")) composerS1 = mkConv storeS1 cid v
          ∧ (mkConv storeS1 (strL ("c1")) composerS1).message_count
              = specNonEmptyCount storeS1 cid v) ∧
      (mkConv storeS1 (strL ("c1")) composerS1).message_count = 2 :=
  ⟨by decide, by decide,
    c1_message_count_counts_nonempty_messages parse0 storeS1 (by decide)
      [mkConv storeS1 (strL ("c1")) composerS1] (by decide)
      (mkConv storeS1 (strL ("c1")) composerS1) (by decide),
    by decide⟩

/-- Claim C3: for every query and filter choice, when both calls return, the
search result list is a subsequence of the plain listing under the same
filters: every search hit appears in the listing and the relative order is
the listing's. -/
theorem c3_search_results_sublist_of_listing
    (parse : Str → Option Int) (s : Store) (q : Str) (since before : Option Str)
    (ie sd : Bool) (R L : List Conv)
    (hR : searchConversations parse s q since before ie sd = some R)
    (hL : listConversations parse s since before ie = some L) :
    R.Sublist L := by
  unfold searchConversations at hR
  split at hR
  · obtain rfl := Option.some.inj hR
    exact List.nil_sublist L
  · split at hR
    · obtain rfl := Option.some.inj hR
      exact List.nil_sublist L
    · rw [hL, Option.map_some'] at hR
      obtain rfl := Option.some.inj hR
      exact List.filter_sublist L

theorem c3_search_results_sublist_of_listing_witness :
    searchConversations parse0 storeAB (strL ("a")) none none true false = some [convAB] ∧
      listConversations parse0 storeAB none none true = some [convAB] ∧
      List.Sublist [convAB] [convAB] :=
  ⟨by decide, by decide,
    c3_search_results_sublist_of_listing parse0 storeAB (strL ("a")) none none true false
      [convAB] [convAB] (by decide) (by decide)⟩

/-- Claim C9: `list_conversations` returns conversations sorted
newest-`createdAt`-first (non-increasing creation keys), and every
conversation without a creation instant is placed after all conversations
that have one. -/
theorem c9_listing_sorted_newest_first_nulls_last
    (parse : Str → Option Int) (s : Store) (since before : Option Str) (ie : Bool)
    (L : List Conv) (hL : listConversations parse s since before ie = some L) :
    L.Pairwise (fun a b => sortKeyC b ≤ sortKeyC a)
      ∧ L.Pairwise (fun a b => a.created = none → b.created = none) := by
  have hsorted : List.Sorted convGE L := by
    unfold listConversations at hL
    rw [Option.map_eq_some'] at hL
    obtain ⟨l2, _, rfl⟩ := hL
    exact List.sorted_insertionSort convGE l2
  have hprov : ∀ c ∈ L, ∀ n : Int, c.created = some n → 1 ≤ n := by
    intro c hcL n hn
    obtain ⟨cid, v, _, rfl⟩ := mem_listConversations hL hcL
    simp only [mkConv] at hn
    split at hn
    · obtain rfl := Option.some.inj hn
      rename_i hne
      simp only [bne_iff_ne, ne_eq] at hne
      omega
    · exact absurd hn (by simp)
  constructor
  · exact hsorted.imp_of_mem (fun _ _ hr => hr)
  · refine hsorted.imp_of_mem ?_
    intro a b haL hbL hr hanone
    by_contra hbnone
    obtain ⟨nb, hnb⟩ := Option.ne_none_iff_exists'.mp hbnone
    have h1 : (1 : Int) ≤ nb := hprov b hbL nb hnb
    have hr' : sortKeyC b ≤ sortKeyC a := hr
    simp only [sortKeyC, hanone, hnb, Option.getD_some, Option.getD_none] at hr'
    rw [dtMin] at hr'
    omega

theorem c9_listing_sorted_newest_first_nulls_last_witness :
    listConversations parse0 storeS9 none none true = some listS9 ∧
      (listS9.Pairwise (fun a b => sortKeyC b ≤ sortKeyC a)
        ∧ listS9.Pairwise (fun a b => a.created = none → b.created = none)) :=
  ⟨by decide,
    c9_listing_sorted_newest_first_nulls_last parse0 storeS9 none none true listS9
      (by decide)⟩

/-- Claim C6: for every item list and parsable bounds, the filter returns the
order-preserving subsequence of items whose instant `d` satisfies `since ≤ d`
(inclusive) and `d < before` (exclusive), dropping items without a valid
instant once either bound is active, and returns the list unchanged when
neither bound is given. -/
theorem c6_filter_by_time_range_semantics (dateOf : α → Option Int)
    (parse : Str → Option Int) (items : List α) (since before : Option Str)
    (hs : pyTruthy since = true → (parse (since.getD [])).isSome = true)
    (hb : pyTruthy before = true → (parse (before.getD [])).isSome = true) :
    filterByTimeRange parse dateOf items since before
      = some (if pyTruthy since || pyTruthy before
          then items.filter (timeKeep parse dateOf since before) else items) := by
  cases hps : pyTruthy since with
  | false =>
    cases hpb : pyTruthy before with
    | false => simp [filterByTimeRange, hps, hpb]
    | true =>
      obtain ⟨bd, hbd⟩ := Option.isSome_iff_exists.mp (hb (by rw [hpb]))
      unfold filterByTimeRange parseBound
      rw [hps, hpb, hbd]
      simp only [Bool.not_false, Bool.not_true, Bool.and_false, Bool.false_or,
        if_true, Option.map_some', Bool.false_eq_true, if_false]
      refine congrArg some (List.filter_congr (fun it _ => ?_))
      unfold timeKeep
      rw [hps, hpb, hbd]
      cases dateOf it <;> simp
  | true =>
    obtain ⟨sd, hsd⟩ := Option.isSome_iff_exists.mp (hs (by rw [hps]))
    cases hpb : pyTruthy before with
    | false =>
      unfold filterByTimeRange parseBound
      rw [hps, hpb, hsd]
      simp only [Bool.not_false, Bool.not_true, Bool.false_and, Bool.true_or,
        if_true, Option.map_some', Bool.false_eq_true, if_false]
      refine congrArg some (List.filter_congr (fun it _ => ?_))
      unfold timeKeep
      rw [hps, hpb, hsd]
      cases dateOf it <;> simp
    | true =>
      obtain ⟨bd, hbd⟩ := Option.isSome_iff_exists.mp (hb (by rw [hpb]))
      unfold filterByTimeRange parseBound
      rw [hps, hpb, hsd, hbd]
      simp only [Bool.not_true, Bool.false_and, Bool.true_or, if_true,
        Option.map_some', Bool.false_eq_true, if_false]
      refine congrArg some (List.filter_congr (fun it _ => ?_))
      unfold timeKeep
      rw [hps, hpb, hsd, hbd]
      cases dateOf it <;> simp

theorem c6_filter_by_time_range_semantics_witness :
    (pyTruthy (some (strL ("2d"))) = true → (parse6 ((some (strL ("2d"))).getD [])).isSome = true) ∧
      filterByTimeRange parse6 (fun it => it) items6 (some (strL ("2d"))) none
        = some (if pyTruthy (some (strL ("2d"))) || pyTruthy none
            then items6.filter (timeKeep parse6 (fun it => it) (some (strL ("2d"))) none)
            else items6) ∧
      filterByTimeRange parse6 (fun it => it) items6 (some (strL ("2d"))) none
        = some [some 1000, some 1500] :=
  ⟨fun _ => by decide,
    c6_filter_by_time_range_semantics (fun it => it) parse6 items6 (some (strL ("2d"))) none
      (fun _ => by decide) (fun h => by simp [pyTruthy] at h),
    by decide⟩

/-! ## Lemmas: percentile fields of `compute` -/

theorem foldl_max_mem (v : ℚ) (vs : List ℚ) : vs.foldl max v ∈ v :: vs := by
  induction vs generalizing v with
  | nil => simp
  | cons a as ih =>
    show as.foldl max (max v a) ∈ _
    rcases List.mem_cons.mp (ih (max v a)) with h | h
    · rcases max_choice v a with hm | hm
      · rw [h, hm]; exact List.mem_cons_self _ _
      · rw [h, hm]; exact List.mem_cons.mpr (Or.inr (List.mem_cons_self a as))
    · exact List.mem_cons.mpr (Or.inr (List.mem_cons.mpr (Or.inr h)))

theorem foldl_max_le (v : ℚ) (vs : List ℚ) : ∀ x ∈ v :: vs, x ≤ vs.foldl max v := by
  induction vs generalizing v with
  | nil => intro x hx; rw [List.mem_singleton] at hx; simp [hx]
  | cons a as ih =>
    intro x hx
    show x ≤ as.foldl max (max v a)
    rcases List.mem_cons.mp hx with h1 | hx'
    · rw [h1]
      exact le_trans (le_max_left v a) (ih (max v a) _ (List.mem_cons_self _ _))
    · rcases List.mem_cons.mp hx' with h2 | hx2
      · rw [h2]
        exact le_trans (le_max_right v a) (ih (max v a) _ (List.mem_cons_self _ _))
      · exact ih (max v a) x (List.mem_cons.mpr (Or.inr hx2))

theorem maxListQ_mem {l : List ℚ} (h : l ≠ []) : maxListQ l ∈ l := by
  cases l with
  | nil => exact absurd rfl h
  | cons v vs => exact foldl_max_mem v vs

theorem maxListQ_le {l : List ℚ} (x : ℚ) (hx : x ∈ l) : x ≤ maxListQ l := by
  cases l with
  | nil => cases hx
  | cons v vs => exact foldl_max_le v vs x hx

theorem compute_p25 (metricOf : Conv → ℚ) (convs : List Conv) (h : convs ≠ []) :
    (compute metricOf convs).p25
      = if 4 ≤ (convs.map metricOf).length
        then (List.insertionSort (· ≤ ·) (convs.map metricOf)).getD
          ((convs.map metricOf).length / 4) 0
        else medianQ (convs.map metricOf) := by
  unfold compute
  rw [if_neg (by simp [h])]

theorem compute_p75 (metricOf : Conv → ℚ) (convs : List Conv) (h : convs ≠ []) :
    (compute metricOf convs).p75
      = if 4 ≤ (convs.map metricOf).length
        then (List.insertionSort (· ≤ ·) (convs.map metricOf)).getD
          (3 * (convs.map metricOf).length / 4) 0
        else medianQ (convs.map metricOf) := by
  unfold compute
  rw [if_neg (by simp [h])]

theorem compute_p90 (metricOf : Conv → ℚ) (convs : List Conv) (h : convs ≠ []) :
    (compute metricOf convs).p90
      = if 10 ≤ (convs.map metricOf).length
        then (List.insertionSort (· ≤ ·) (convs.map metricOf)).getD
          (9 * (convs.map metricOf).length / 10) 0
        else maxListQ (convs.map metricOf) := by
  unfold compute
  rw [if_neg (by simp [h])]

theorem compute_median (metricOf : Conv → ℚ) (convs : List Conv) (h : convs ≠ []) :
    (compute metricOf convs).median = medianQ (convs.map metricOf) := by
  unfold compute
  rw [if_neg (by simp [h])]

theorem compute_maxV (metricOf : Conv → ℚ) (convs : List Conv) (h : convs ≠ []) :
    (compute metricOf convs).maxV = maxListQ (convs.map metricOf) := by
  unfold compute
  rw [if_neg (by simp [h])]

/-- Claim C7: `compute`'s percentiles are nearest-rank indexes into the
sorted values (`int(n*0.25)`, `int(n*0.75)`, `int(n*0.9)`, exact floor
divisions for feasible sample sizes), except that p25/p75 equal the median
when n < 4 and p90 equals the sample maximum when n < 10; in particular for
n = 3, p25 = p75 = median, and for n = 9, p90 = max. -/
theorem c7_percentiles_nearest_rank_with_fallbacks
    (metricOf : Conv → ℚ) (convs : List Conv) (h : convs ≠ []) :
    (4 ≤ convs.length →
        (compute metricOf convs).p25
          = (List.insertionSort (· ≤ ·) (convs.map metricOf)).getD (convs.length / 4) 0
        ∧ (compute metricOf convs).p75
          = (List.insertionSort (· ≤ ·) (convs.map metricOf)).getD (3 * convs.length / 4) 0)
    ∧ (convs.length < 4 →
        (compute metricOf convs).p25 = (compute metricOf convs).median
        ∧ (compute metricOf convs).p75 = (compute metricOf convs).median)
    ∧ (10 ≤ convs.length →
        (compute metricOf convs).p90
          = (List.insertionSort (· ≤ ·) (convs.map metricOf)).getD (9 * convs.length / 10) 0)
    ∧ (convs.length < 10 →
        (compute metricOf convs).p90 = (compute metricOf convs).maxV
        ∧ (compute metricOf convs).maxV ∈ convs.map metricOf
        ∧ ∀ x ∈ convs.map metricOf, x ≤ (compute metricOf convs).maxV)
    ∧ (convs.length = 3 →
        (compute metricOf convs).p25 = (compute metricOf convs).median
        ∧ (compute metricOf convs).p75 = (compute metricOf convs).median)
    ∧ (convs.length = 9 →
        (compute metricOf convs).p90 = (compute metricOf convs).maxV) := by
  have hmapne : convs.map metricOf ≠ [] := by simpa using h
  have hlen : (convs.map metricOf).length = convs.length := List.length_map _ _
  refine ⟨fun h4 => ?_, fun h4 => ?_, fun h10 => ?_, fun h10 => ?_, fun h3 => ?_,
    fun h9 => ?_⟩
  · rw [compute_p25 _ _ h, compute_p75 _ _ h, hlen, if_pos h4, if_pos h4]
    exact ⟨rfl, rfl⟩
  · rw [compute_p25 _ _ h, compute_p75 _ _ h, compute_median _ _ h, hlen,
      if_neg (by omega), if_neg (by omega)]
    exact ⟨rfl, rfl⟩
  · rw [compute_p90 _ _ h, hlen, if_pos h10]
  · rw [compute_p90 _ _ h, compute_maxV _ _ h, hlen, if_neg (by omega)]
    exact ⟨rfl, maxListQ_mem hmapne, fun x hx => maxListQ_le x hx⟩
  · rw [compute_p25 _ _ h, compute_p75 _ _ h, compute_median _ _ h, hlen,
      if_neg (by omega), if_neg (by omega)]
    exact ⟨rfl, rfl⟩
  · rw [compute_p90 _ _ h, compute_maxV _ _ h, hlen, if_neg (by omega)]

theorem c7_percentiles_nearest_rank_with_fallbacks_witness :
    convs3 ≠ [] ∧ convs3.length = 3 ∧
      ((compute metricCount convs3).p25 = (compute metricCount convs3).median
        ∧ (compute metricCount convs3).p75 = (compute metricCount convs3).median) :=
  ⟨by decide, by decide,
    (c7_percentiles_nearest_rank_with_fallbacks metricCount convs3 (by decide)).2.2.2.2.1
      (by decide)⟩

/-! ## Lemmas: effective model propagation -/

theorem isOverride_eq_cond (m : Msg) :
    isOverride m = (pyTruthy m.model && !(m.model == some (strL ("default")))) := by
  unfold isOverride pyTruthy
  cases m.model <;> rfl

theorem effGo_getD (msgs : List Msg) :
    ∀ (cur : Option Str) (i : Nat), i < msgs.length →
      (effectiveModelsGo cur msgs).getD i none
        = ((msgs.take (i + 1)).filter isOverride).getLast?.elim cur Msg.model := by
  induction msgs with
  | nil => intro cur i h; exact absurd h (by simp)
  | cons m ms ih =>
    intro cur i h
    have hstep : effectiveModelsGo cur (m :: ms)
        = (if pyTruthy m.model && !(m.model == some (strL ("default")))
            then m.model else cur)
          :: effectiveModelsGo
            (if pyTruthy m.model && !(m.model == some (strL ("default")))
              then m.model else cur) ms := rfl
    rw [hstep, ← isOverride_eq_cond, List.take_succ_cons, List.filter_cons]
    cases i with
    | zero =>
      rw [List.getD_cons_zero]
      by_cases ho : isOverride m = true
      · rw [if_pos ho, if_pos ho]
        simp [List.take]
      · rw [if_neg ho, if_neg ho]
        simp [List.take]
    | succ j =>
      rw [List.getD_cons_succ, ih _ j (by simpa using h)]
      by_cases ho : isOverride m = true
      · rw [if_pos ho, if_pos ho, List.getLast?_cons]
        cases hL : ((ms.take (j + 1)).filter isOverride).getLast? with
        | none => simp [hL]
        | some x => simp [hL]
      · rw [if_neg ho, if_neg ho]

/-- Claim C8: the effective model shown for the message at position `i` is
the model of the most recent message at position `≤ i` carrying an explicit
override (a non-empty model value other than the literal `"default"`), and
`none` (unknown) when no such message exists. -/
theorem c8_effective_model_is_last_override (msgs : List Msg) (i : Nat)
    (h : i < msgs.length) :
    (effectiveModels msgs).getD i none = lastOverrideModel (msgs.take (i + 1)) := by
  unfold effectiveModels lastOverrideModel
  rw [effGo_getD msgs none i h]
  cases hL : ((msgs.take (i + 1)).filter isOverride).getLast? with
  | none => rfl
  | some x => rfl

theorem c8_effective_model_is_last_override_witness :
    (1 < msgs8.length
        ∧ (effectiveModels msgs8).getD 1 none = lastOverrideModel (msgs8.take 2))
      ∧ effectiveModels msgs8
        = [some (strL ("gpt-4")), some (strL ("gpt-4")), some (strL ("claude-3-5"))]
      ∧ lastOverrideModel (msgs8.take 2) = some (strL ("gpt-4")) :=
  ⟨⟨by decide, c8_effective_model_is_last_override msgs8 1 (by decide)⟩,
    by decide, by decide⟩

/-- Claim C10: the period windows of `by_period` do not tile the timeline —
each window is the inclusive range `[start, start + length − 1 second]` (for
days and for Monday-aligned weeks), so the conversation `convGap`, created
strictly between 23:59:59 of yesterday and today's midnight, is counted in no
period of a two-day `by_period` run even though it lies inside the overall
span of the requested periods. -/
theorem c10_period_windows_leave_sub_second_gap :
    (∀ off : Nat, ∃ b : Int × Int,
        getPeriodBounds refD (strL ("day")) off = some b
          ∧ b.2 = b.1 + (86400000 - 1000))
      ∧ (∀ off : Nat, ∃ b : Int × Int,
          getPeriodBounds refD (strL ("week")) off = some b
            ∧ b.2 = b.1 + (7 * 86400000 - 1000))
      ∧ ((byPeriod [convGap] (strL ("day")) metricCount 2 refD).getD []).length = 2
      ∧ (∀ r ∈ (byPeriod [convGap] (strL ("day")) metricCount 2 refD).getD [],
          r.count = 0)
      ∧ (((byPeriod [convGap] (strL ("day")) metricCount 2 refD).getD []).getD 0 {}).start_date
          = some refD
      ∧ (((byPeriod [convGap] (strL ("day")) metricCount 2 refD).getD []).getD 0 {}).end_date
          = some (refD + 86399000)
      ∧ (((byPeriod [convGap] (strL ("day")) metricCount 2 refD).getD []).getD 1 {}).start_date
          = some (refD - 86400000)
      ∧ (((byPeriod [convGap] (strL ("day")) metricCount 2 refD).getD []).getD 1 {}).end_date
          = some (refD - 1000)
      ∧ convGap.created = some (refD - 500)
      ∧ refD - 86400000 ≤ refD - 500 ∧ refD - 500 ≤ refD + 86399000
      ∧ refD - 1000 < refD - 500 ∧ refD - 500 < refD := by
  refine ⟨fun off => ?_, fun off => ?_, by decide, by decide, by decide, by decide,
    by decide, by decide, by decide, by decide, by decide, by decide, by decide⟩
  · unfold getPeriodBounds
    rw [if_neg (by decide), if_pos (by decide)]
    exact ⟨_, rfl, by ring⟩
  · unfold getPeriodBounds
    rw [if_pos (by decide)]
    exact ⟨_, rfl, by ring⟩

/-! ## Lemmas: the term-intersection loop of `search_conversations` -/

theorem searchLoop_some_mem (s : Store) (sd : Bool) (ts : List Str) :
    ∀ acc ids, searchLoop s sd acc ts = some ids →
      ∀ x, (x ∈ ids ↔ x ∈ acc ∧ ∀ t ∈ ts, x ∈ findIdsForTerm s t sd) := by
  induction ts with
  | nil =>
    intro acc ids h x
    obtain rfl := Option.some.inj h
    simp
  | cons t ts ih =>
    intro acc ids h x
    unfold searchLoop at h
    split at h
    · exact absurd h (by simp)
    · rw [ih _ _ h x, interL_mem]
      constructor
      · rintro ⟨⟨ha, hf⟩, hall⟩
        refine ⟨ha, fun u hu => ?_⟩
        rcases List.mem_cons.mp hu with h1 | hu'
        · rw [h1]; exact hf
        · exact hall u hu'
      · rintro ⟨ha, hall⟩
        exact ⟨⟨ha, hall t (List.mem_cons_self t ts)⟩,
          fun u hu => hall u (List.mem_cons.mpr (Or.inr hu))⟩

theorem searchLoop_none (s : Store) (sd : Bool) (ts : List Str) :
    ∀ acc, searchLoop s sd acc ts = none →
      ∀ x, ¬(x ∈ acc ∧ ∀ t ∈ ts, x ∈ findIdsForTerm s t sd) := by
  induction ts with
  | nil => intro acc h; exact absurd h (by simp [searchLoop])
  | cons t ts ih =>
    intro acc h x hx
    unfold searchLoop at h
    split at h
    · rename_i hemp
      have hxin : x ∈ interL acc (findIdsForTerm s t sd) :=
        (interL_mem _ _ x).mpr ⟨hx.1, hx.2 t (List.mem_cons_self t ts)⟩
      rw [List.isEmpty_iff.mp hemp] at hxin
      cases hxin
    · exact ih _ h x ⟨(interL_mem _ _ x).mpr ⟨hx.1, hx.2 t (List.mem_cons_self t ts)⟩,
        fun u hu => hx.2 u (List.mem_cons.mpr (Or.inr hu))⟩

theorem searchIds_some_mem {s : Store} {sd : Bool} {t : Str} {ts : List Str}
    {ids : List Str} (h : searchIds s sd (t :: ts) = some ids) (x : Str) :
    x ∈ ids ↔ ∀ u ∈ t :: ts, x ∈ findIdsForTerm s u sd := by
  simp only [searchIds] at h
  split at h
  · exact absurd h (by simp)
  · rw [searchLoop_some_mem s sd ts _ _ h x]
    constructor
    · rintro ⟨hf, hall⟩
      intro u hu
      rcases List.mem_cons.mp hu with h1 | hu'
      · rw [h1]; exact hf
      · exact hall u hu'
    · intro hall
      exact ⟨hall t (List.mem_cons_self t ts),
        fun u hu => hall u (List.mem_cons.mpr (Or.inr hu))⟩

theorem searchIds_none {s : Store} {sd : Bool} {t : Str} {ts : List Str}
    (h : searchIds s sd (t :: ts) = none) (x : Str) :
    ¬ ∀ u ∈ t :: ts, x ∈ findIdsForTerm s u sd := by
  simp only [searchIds] at h
  intro hall
  split at h
  · rename_i hemp
    have hx := hall t (List.mem_cons_self t ts)
    rw [List.isEmpty_iff.mp hemp] at hx
    cases hx
  · exact searchLoop_none s sd ts _ h x
      ⟨hall t (List.mem_cons_self t ts),
        fun u hu => hall u (List.mem_cons.mpr (Or.inr hu))⟩

/-- Claim C2 counterexample: the query `"a b" b` tokenizes into the two terms
`a b` and `b`, yet `search_conversations` of the whole query is empty while
the intersection of the two single-term searches contains `convAB`: a quoted
phrase term, passed back as its own query, re-tokenizes into separate
keywords, so search("a b") is keyword-AND rather than the phrase term-set. -/
theorem c2_query_vs_per_term_intersection_counterexample :
    parseSearchQuery (strL ("\"a b\" b")) = [strL ("a b"), strL ("b")] ∧
      searchConversations parse0 storeAB (strL ("\"a b\" b")) none none true false
        = some [] ∧
      ¬ memR convAB
        (searchConversations parse0 storeAB (strL ("\"a b\" b")) none none true false) ∧
      memR convAB (searchConversations parse0 storeAB (strL ("a b")) none none true false) ∧
      memR convAB (searchConversations parse0 storeAB (strL ("b")) none none true false) :=
  ⟨by decide, by decide, by decide, by decide, by decide⟩

/-- Claim C2 (amended): for every query tokenizing into terms t1..tk (k ≥ 2)
each of which re-tokenizes to itself as a one-term query (true of every
whitespace-free keyword), and fixed time/empty filters, the set of
conversations returned by the multi-term search equals the intersection of
the single-term search result sets; in particular search("a b") equals
search("a") ∩ search("b") as sets, and once the running intersection becomes
empty the result is empty. -/
theorem c2_multiterm_search_is_term_intersection_amended
    (parse : Str → Option Int) (s : Store) (since before : Option Str) (ie sd : Bool)
    (q : Str) (ts : List Str) (hq : parseSearchQuery q = ts) (hk : 2 ≤ ts.length)
    (hself : ∀ t ∈ ts, parseSearchQuery t = [t]) (c : Conv) :
    memR c (searchConversations parse s q since before ie sd)
      ↔ ∀ t ∈ ts, memR c (searchConversations parse s t since before ie sd) := by
  obtain ⟨t0, ts', rfl⟩ : ∃ a l, ts = a :: l := by
    cases ts with
    | nil => simp at hk
    | cons a l => exact ⟨a, l, rfl⟩
  have hsingle : ∀ t ∈ t0 :: ts',
      (memR c (searchConversations parse s t since before ie sd) ↔
        (∃ L, listConversations parse s since before ie = some L ∧ c ∈ L
          ∧ c.id ∈ findIdsForTerm s t sd)) := by
    intro t ht
    unfold searchConversations
    rw [hself t ht]
    rw [if_neg (by simp)]
    by_cases hemp : (findIdsForTerm s t sd).isEmpty = true
    · have hids : searchIds s sd [t] = none := by
        show (if (findIdsForTerm s t sd).isEmpty = true then none
            else searchLoop s sd (findIdsForTerm s t sd) []) = none
        rw [if_pos hemp]
      rw [hids]
      rw [List.isEmpty_iff.mp hemp]
      simp [memR]
    · have hids : searchIds s sd [t] = some (findIdsForTerm s t sd) := by
        show (if (findIdsForTerm s t sd).isEmpty = true then none
            else searchLoop s sd (findIdsForTerm s t sd) []) = _
        rw [if_neg hemp]
        rfl
      rw [hids]
      cases hlist : listConversations parse s since before ie with
      | none => simp [memR]
      | some L => simp [memR, List.mem_filter]
  have hRHS : (∀ t ∈ t0 :: ts',
        memR c (searchConversations parse s t since before ie sd))
      ↔ (∀ t ∈ t0 :: ts',
        ∃ L, listConversations parse s since before ie = some L ∧ c ∈ L
          ∧ c.id ∈ findIdsForTerm s t sd) := by
    constructor
    · intro hall t ht; exact (hsingle t ht).mp (hall t ht)
    · intro hall t ht; exact (hsingle t ht).mpr (hall t ht)
  rw [hRHS]
  unfold searchConversations
  rw [hq, if_neg (by simp)]
  cases hids : searchIds s sd (t0 :: ts') with
  | none =>
    constructor
    · intro hcl
      exact absurd hcl (by simp [memR])
    · intro hall
      refine absurd (fun u hu => ?_) (searchIds_none hids c.id)
      obtain ⟨L, _, _, hfind⟩ := hall u hu
      exact hfind
  | some ids =>
    cases hlist : listConversations parse s since before ie with
    | none =>
      constructor
      · intro hcl
        exact absurd hcl (by simp [memR])
      · intro hall
        obtain ⟨L, hL, _⟩ := hall t0 (List.mem_cons_self t0 ts')
        exact absurd hL (by simp)
    | some L =>
      simp only [Option.map_some', memR, Option.getD_some, List.mem_filter,
        decide_eq_true_eq, Option.some.injEq]
      rw [searchIds_some_mem hids c.id]
      constructor
      · rintro ⟨hcL, hall⟩ u hu
        exact ⟨L, rfl, hcL, hall u hu⟩
      · intro hall
        obtain ⟨L1, hL1, hcL1, _⟩ := hall t0 (List.mem_cons_self t0 ts')
        obtain rfl := hL1
        refine ⟨hcL1, fun u hu => ?_⟩
        obtain ⟨L2, hL2, _, hfind⟩ := hall u hu
        exact hfind

theorem c2_multiterm_search_is_term_intersection_amended_witness :
    parseSearchQuery (strL ("a b")) = [strL ("a"), strL ("b")] ∧
      (memR convAB (searchConversations parse0 storeAB (strL ("a b")) none none true false)
        ↔ ∀ t ∈ [strL ("a"), strL ("b")],
            memR convAB (searchConversations parse0 storeAB t none none true false)) ∧
      memR convAB (searchConversations parse0 storeAB (strL ("a b")) none none true false) :=
  ⟨by decide,
    c2_multiterm_search_is_term_intersection_amended parse0 storeAB none none true false
      (strL ("a b")) [strL ("a"), strL ("b")] (by decide) (by decide) (by decide) convAB,
    by decide⟩

end CCS
